import Mathlib

/-!
A shallow embedding of the `envconf` crate: a derive macro that initializes a
struct from environment variables.  The derive (`envconf_derive/src/lib.rs`)
generates, for every field of the struct, an initializer expression chosen by
which of the `env = ...` / `default = ...` attribute arguments are present:

  * `parse_env_and_default`: `if let Ok(r) = std::env::var(v) { r.parse()... }
    else { d.to_string().parse()... }`
  * `parse_env_only`: missing variable returns `Err(Error::MissingEnv(v))`
  * `parse_default_only`: `d.to_string().parse()...`

and `impl_setting_struct` assembles them, in field declaration order, inside
`Ok(Self { ... })` where each initializer uses `?`, so the first failing field
aborts the construction.  A field carrying neither attribute argument makes the
macro panic at expansion time (`ToTokens for FieldInit`), i.e. such a catalog
never produces a resolver at all; we model that with `Option`.

The error type is from `envconf/src/lib.rs`.
-/

/-- The errors of `envconf::Error` (`envconf/src/lib.rs`): `MissingEnv`
carries the variable name, `EnvParse` the variable name and the raw value,
`DefaultParse` the field name and the default's source text. -/
inductive Error where
  | MissingEnv (name : String)
  | EnvParse (name : String) (value : String)
  | DefaultParse (name : String) (value : String)
deriving DecidableEq, Repr

/-- A value stored in the process environment: either valid Unicode text, or
bytes that are not valid Unicode (for which Rust's `std::env::var` returns
`Err(VarError::NotUnicode)`). -/
inductive OsValue where
  | unicode (s : String)
  | invalid
deriving DecidableEq, Repr

/-- The process environment: an association of variable names to values. -/
abbrev Env : Type := List (String × OsValue)

/-- `std::env::var(k)` as used by the generated code: `Ok(r)` exactly when the
variable is set and its value is valid Unicode; both `NotPresent` and
`NotUnicode` are `Err`, and the generated `if let Ok(r) = ...` treats them
alike. -/
def env_var (e : Env) (k : String) : Option String :=
  match List.lookup k e with
  | some (OsValue.unicode s) => some s
  | some OsValue.invalid => none
  | none => none

/-- A `syn::Lit` as it occurs in the attribute arguments: either a string
literal or a (nonnegative) integer literal.  (These are the kinds exercised by
the crate: `default = "localhost"` and `default = 3000`.) -/
inductive Lit where
  | str (s : String)
  | int (n : Nat)
deriving DecidableEq, Repr

/-- The text produced by `#d.to_string()` in the generated code: the Rust
`Display` form of the literal's value.  For a string literal this is the string
itself; for an integer literal its canonical decimal form. -/
def Lit.toDisplay : Lit → String
  | Lit.str s => s
  | Lit.int n => toString n

/-- The text produced by `stringify!(#d)` in the generated code: the source
token of the literal.  For a string literal this keeps the surrounding quotes;
for an integer literal it is the decimal form. -/
def Lit.stringify : Lit → String
  | Lit.str s => (("\"").append s).append ("\"")
  | Lit.int n => toString n

/-- The value of a resolved field: the crate's examples and tests use `String`
and `usize` fields. -/
inductive Val where
  | str (s : String)
  | nat (n : Nat)
deriving DecidableEq, Repr

/-- Digits of a decimal numeral to its value; `none` when the list is empty or
contains a non-digit. -/
def digitsToNat (l : List Char) : Option Nat :=
  if l ≠ [] ∧ l.all Char.isDigit then
    some (l.foldl (fun acc c => acc * 10 + (c.toNat - 48)) 0)
  else none

/-- Rust's `usize::from_str` (`r.parse::<usize>()`): an optional leading `+`
sign, then one or more ASCII digits, value within the 64-bit range. -/
def parse_usize (s : String) : Option Nat :=
  let body : List Char :=
    match s.data with
    | List.cons c rest => if c = '+' then rest else List.cons c rest
    | List.nil => List.nil
  match digitsToNat body with
  | some n => if n < 2 ^ 64 then some n else none
  | none => none

/-- The Rust type of a field, which fixes the `FromStr` instance that the
generated `r.parse()` resolves to. -/
inductive FieldTy where
  | stringTy
  | usizeTy
deriving DecidableEq, Repr

/-- `text.parse::<T>()` for the field's type `T`: `String::from_str` never
fails; `usize::from_str` is `parse_usize`. -/
def FieldTy.parse : FieldTy → String → Option Val
  | FieldTy.stringTy => fun s => some (Val.str s)
  | FieldTy.usizeTy => fun s => (parse_usize s).map Val.nat

/-- The `conf` attribute arguments of one field (`struct FieldArgs`): an
optional `env` key and an optional `default` literal.  The `env` argument is
interpolated into `std::env::var(#v)`, so it is a string. -/
structure FieldArgs where
  env : Option String
  default : Option Lit
deriving DecidableEq, Repr

/-- One field of the derived struct (`struct FieldInit`), extended with the
field's Rust type, which in the source is implicit in the struct declaration
and picked up by `r.parse()` type inference. -/
structure FieldInit where
  name : String
  args : FieldArgs
  ty : FieldTy
deriving DecidableEq, Repr

/-- Semantics of `FieldInit::parse_env_and_default`: if the variable is set
(`Ok` from `env_var`), parse its value, failing with `EnvParse(v, r)`;
otherwise stringify the default literal and parse that, failing with
`DefaultParse(stringify!(name), stringify!(d))`. -/
def FieldInit.parse_env_and_default (f : FieldInit) (v : String) (d : Lit)
    (e : Env) : Except Error Val :=
  match env_var e v with
  | some r =>
    match f.ty.parse r with
    | some x => Except.ok x
    | none => Except.error (Error.EnvParse v r)
  | none =>
    match f.ty.parse d.toDisplay with
    | some x => Except.ok x
    | none => Except.error (Error.DefaultParse f.name d.stringify)

/-- Semantics of `FieldInit::parse_env_only`: if the variable is set, parse its
value, failing with `EnvParse(v, r)`; otherwise `MissingEnv(v)`. -/
def FieldInit.parse_env_only (f : FieldInit) (v : String) (e : Env) :
    Except Error Val :=
  match env_var e v with
  | some r =>
    match f.ty.parse r with
    | some x => Except.ok x
    | none => Except.error (Error.EnvParse v r)
  | none => Except.error (Error.MissingEnv v)

/-- Semantics of `FieldInit::parse_default_only`: stringify the default
literal and parse it, failing with `DefaultParse`. -/
def FieldInit.parse_default_only (f : FieldInit) (d : Lit) (_e : Env) :
    Except Error Val :=
  match f.ty.parse d.toDisplay with
  | some x => Except.ok x
  | none => Except.error (Error.DefaultParse f.name d.stringify)

/-- The dispatch of `impl ToTokens for FieldInit`: choose the initializer from
which attribute arguments are present; a field with neither makes the macro
panic ("Either env or default attribute params are required"), modelled as
`none`. -/
def FieldInit.to_tokens (f : FieldInit) : Option (Env → Except Error Val) :=
  match f.args.env, f.args.default with
  | some v, some d => some (f.parse_env_and_default v d)
  | some v, none => some (f.parse_env_only v)
  | none, some d => some (f.parse_default_only d)
  | none, none => none

/-- The result of one field's initializer on an environment, when the macro
accepted the field at all. -/
def init_result (f : FieldInit) (e : Env) : Option (Except Error Val) :=
  (FieldInit.to_tokens f).map (fun i => i e)

/-- `fields.iter().map(|x| x.into()).collect()` followed by quoting each
`FieldInit`: produces the list of per-field initializers, or fails (macro
panic) if some field has neither `env` nor `default`. -/
def collect_inits : List FieldInit → Option (List (Env → Except Error Val))
  | List.nil => some List.nil
  | List.cons f fs =>
    match FieldInit.to_tokens f, collect_inits fs with
    | some i, some is => some (List.cons i is)
    | _, _ => none

/-- Evaluation of the generated `Ok(Self { f1: e1?, f2: e2?, ... })`: the
initializers run in declaration order and the first `Err` is returned by `?`,
so no later initializer runs. -/
def run_inits (inits : List (Env → Except Error Val)) (e : Env) :
    Except Error (List Val) :=
  match inits with
  | List.nil => Except.ok List.nil
  | List.cons i rest =>
    match i e with
    | Except.ok v => (run_inits rest e).map (fun vs => List.cons v vs)
    | Except.error err => Except.error err

/-- `impl_setting_struct`: the derived `Setting::init` as a function of the
environment, or `none` when macro expansion panics on an invalid field. -/
def impl_setting_struct (fields : List FieldInit) :
    Option (Env → Except Error (List Val)) :=
  match collect_inits fields with
  | some inits => some (run_inits inits)
  | none => none

/-- The observable behavior of the derived `init` in environment `e`: `none`
when the derive itself panicked, otherwise the `Result` of the call. -/
def init_outcome (fields : List FieldInit) (e : Env) :
    Option (Except Error (List Val)) :=
  (impl_setting_struct fields).map (fun r => r e)

/- ### Helper lemmas -/

theorem init_result_some {g : FieldInit} {e : Env} {r : Except Error Val}
    (h : init_result g e = some r) :
    ∃ i, FieldInit.to_tokens g = some i ∧ i e = r := by
  unfold init_result at h
  cases ht : FieldInit.to_tokens g with
  | none => rw [ht] at h; simp at h
  | some i =>
    rw [ht] at h
    simp only [Option.map_some'] at h
    exact ⟨i, rfl, by injection h⟩

theorem collect_inits_sound {fs : List FieldInit}
    {inits : List (Env → Except Error Val)}
    (h : collect_inits fs = some inits) :
    ∀ i ∈ inits, ∃ g ∈ fs, FieldInit.to_tokens g = some i := by
  induction fs generalizing inits with
  | nil =>
    unfold collect_inits at h
    injection h with h
    subst h
    simp
  | cons f rest ih =>
    unfold collect_inits at h
    cases ht : FieldInit.to_tokens f with
    | none => rw [ht] at h; simp at h
    | some i0 =>
      rw [ht] at h
      cases hr : collect_inits rest with
      | none => rw [hr] at h; simp at h
      | some is0 =>
        rw [hr] at h
        injection h with h
        subst h
        intro i hi
        rcases List.mem_cons.mp hi with hhead | htail
        · exact ⟨f, List.mem_cons_self f rest, by rw [ht, hhead]⟩
        · rcases ih hr i htail with ⟨g, hg, hgt⟩
          exact ⟨g, List.mem_cons_of_mem f hg, hgt⟩

theorem collect_inits_of_valid (fs : List FieldInit)
    (h : ∀ g ∈ fs, Option.isSome (FieldInit.to_tokens g) = true) :
    ∃ is, collect_inits fs = some is := by
  induction fs with
  | nil => exact ⟨List.nil, rfl⟩
  | cons f rest ih =>
    rcases ih (fun g hg => h g (List.mem_cons_of_mem f hg)) with ⟨is0, his⟩
    rcases Option.isSome_iff_exists.mp (h f (List.mem_cons_self f rest)) with ⟨i0, hi0⟩
    refine ⟨List.cons i0 is0, ?_⟩
    unfold collect_inits
    rw [hi0, his]

theorem run_inits_first_error
    {ipre ipost : List (Env → Except Error Val)}
    {i0 : Env → Except Error Val} {e : Env} {err : Error}
    (hpre : ∀ i ∈ ipre, ∃ v, i e = Except.ok v)
    (h0 : i0 e = Except.error err) :
    run_inits (ipre ++ List.cons i0 ipost) e = Except.error err := by
  induction ipre with
  | nil => simp [run_inits, h0]
  | cons i rest ih =>
    rcases hpre i (List.mem_cons_self i rest) with ⟨v, hv⟩
    have hr : run_inits (rest.append (List.cons i0 ipost)) e = Except.error err :=
      ih (fun j hj => hpre j (List.mem_cons_of_mem i hj))
    simp only [List.cons_append, run_inits, hv]
    rw [hr]
    rfl

theorem collect_inits_append_cons
    {pre post : List FieldInit} {f : FieldInit}
    {ipre ipost : List (Env → Except Error Val)}
    {i0 : Env → Except Error Val}
    (hipre : collect_inits pre = some ipre)
    (hi0 : FieldInit.to_tokens f = some i0)
    (hipost : collect_inits post = some ipost) :
    collect_inits (pre ++ List.cons f post)
      = some (ipre ++ List.cons i0 ipost) := by
  induction pre generalizing ipre with
  | nil =>
    unfold collect_inits at hipre
    injection hipre with hipre
    subst hipre
    rw [List.nil_append, List.nil_append]
    unfold collect_inits
    rw [hi0, hipost]
  | cons g rest ih =>
    unfold collect_inits at hipre
    cases hg : FieldInit.to_tokens g with
    | none => rw [hg] at hipre; simp at hipre
    | some ig =>
      rw [hg] at hipre
      cases hr : collect_inits rest with
      | none => rw [hr] at hipre; simp at hipre
      | some irest =>
        rw [hr] at hipre
        injection hipre with hipre
        subst hipre
        have hrest := ih hr
        simp only [List.cons_append]
        unfold collect_inits
        rw [hg, hrest]

/-- The backbone of the fail-fast claims: in a catalog `pre ++ f :: post`
where every field of `pre` succeeds in `e` and `f` fails with `err`, the
derived `init` returns exactly `err` (and the fields of `post` merely have to
be ones the macro accepts). -/
theorem first_error_outcome
    {pre post : List FieldInit} {f : FieldInit} {e : Env} {err : Error}
    (hpre : ∀ g ∈ pre, ∃ v, init_result g e = some (Except.ok v))
    (hf : init_result f e = some (Except.error err))
    (hpost : ∀ g ∈ post, Option.isSome (FieldInit.to_tokens g) = true) :
    init_outcome (pre ++ List.cons f post) e = some (Except.error err) := by
  rcases collect_inits_of_valid pre
      (fun g hg => by
        rcases hpre g hg with ⟨v, hv⟩
        rcases init_result_some hv with ⟨i, hi, _⟩
        rw [hi]; rfl) with ⟨ipre, hipre⟩
  rcases collect_inits_of_valid post hpost with ⟨ipost, hipost⟩
  rcases init_result_some hf with ⟨i0, hi0, hi0e⟩
  have hcat := collect_inits_append_cons hipre hi0 hipost
  unfold init_outcome impl_setting_struct
  rw [hcat]
  simp only [Option.map_some']
  congr 1
  apply run_inits_first_error _ hi0e
  intro i hi
  rcases collect_inits_sound hipre i hi with ⟨g, hg, hgt⟩
  rcases hpre g hg with ⟨v, hv⟩
  rcases init_result_some hv with ⟨i2, hi2, hi2e⟩
  rw [hgt] at hi2
  injection hi2 with hi2
  subst hi2
  exact ⟨v, hi2e⟩

theorem init_result_missing {f : FieldInit} {v : String} {e : Env}
    (h1 : f.args.env = some v) (h2 : f.args.default = none)
    (h3 : env_var e v = none) :
    init_result f e = some (Except.error (Error.MissingEnv v)) := by
  simp [init_result, FieldInit.to_tokens, h1, h2, FieldInit.parse_env_only, h3]

theorem init_result_env_parse {f : FieldInit} {v : String} {e : Env} {r : String}
    (h1 : f.args.env = some v) (h3 : env_var e v = some r)
    (h4 : f.ty.parse r = none) :
    init_result f e = some (Except.error (Error.EnvParse v r)) := by
  cases hd : f.args.default with
  | none =>
    simp [init_result, FieldInit.to_tokens, h1, hd, FieldInit.parse_env_only,
      h3, h4]
  | some d =>
    simp [init_result, FieldInit.to_tokens, h1, hd,
      FieldInit.parse_env_and_default, h3, h4]

theorem init_result_default_parse {f : FieldInit} {d : Lit} {e : Env}
    (h2 : f.args.default = some d) (h4 : f.ty.parse d.toDisplay = none)
    (henv : ∀ v, f.args.env = some v → env_var e v = none) :
    init_result f e = some (Except.error (Error.DefaultParse f.name d.stringify)) := by
  cases he : f.args.env with
  | none =>
    simp [init_result, FieldInit.to_tokens, he, h2,
      FieldInit.parse_default_only, h4]
  | some v =>
    simp [init_result, FieldInit.to_tokens, he, h2,
      FieldInit.parse_env_and_default, henv v he, h4]

theorem to_tokens_env_agree {f : FieldInit} {i : Env → Except Error Val}
    {e₁ e₂ : Env}
    (ht : FieldInit.to_tokens f = some i)
    (h : ∀ k, f.args.env = some k → env_var e₁ k = env_var e₂ k) :
    i e₁ = i e₂ := by
  cases he : f.args.env with
  | none =>
    cases hd : f.args.default with
    | none => simp [FieldInit.to_tokens, he, hd] at ht
    | some d =>
      simp [FieldInit.to_tokens, he, hd] at ht
      subst ht
      rfl
  | some v =>
    have hk := h v he
    cases hd : f.args.default with
    | none =>
      simp [FieldInit.to_tokens, he, hd] at ht
      subst ht
      unfold FieldInit.parse_env_only
      rw [hk]
    | some d =>
      simp [FieldInit.to_tokens, he, hd] at ht
      subst ht
      unfold FieldInit.parse_env_and_default
      rw [hk]

theorem run_inits_congr {inits : List (Env → Except Error Val)} {e₁ e₂ : Env}
    (h : ∀ i ∈ inits, i e₁ = i e₂) :
    run_inits inits e₁ = run_inits inits e₂ := by
  induction inits with
  | nil => rfl
  | cons i rest ih =>
    have hi := h i (List.mem_cons_self i rest)
    have hr := ih (fun j hj => h j (List.mem_cons_of_mem i hj))
    unfold run_inits
    rw [hi, hr]

/- ### Claims -/

/-- C1: whenever every field before `f` in the catalog resolves successfully
and `f` fails with `err`, the derived `init` returns exactly `err`, for any
tail of further fields (so no subsequent field influences the result); in
particular, for two mandatory (env-only) fields `A` and `B` whose keys are
both unset, the catalog `[A, B]` yields `A`'s `MissingEnv` error and the
reversed catalog `[B, A]` yields `B`'s. -/
theorem C1_first_failure_in_order :
    (∀ (pre post : List FieldInit) (f : FieldInit) (e : Env) (err : Error),
      (∀ g ∈ pre, ∃ v, init_result g e = some (Except.ok v)) →
      init_result f e = some (Except.error err) →
      (∀ g ∈ post, Option.isSome (FieldInit.to_tokens g) = true) →
      init_outcome (pre ++ List.cons f post) e = some (Except.error err)) ∧
    (∀ (A B : FieldInit) (ka kb : String) (e : Env),
      A.args.env = some ka → A.args.default = none →
      B.args.env = some kb → B.args.default = none →
      env_var e ka = none → env_var e kb = none →
      init_outcome (List.cons A (List.cons B List.nil)) e
          = some (Except.error (Error.MissingEnv ka)) ∧
      init_outcome (List.cons B (List.cons A List.nil)) e
          = some (Except.error (Error.MissingEnv kb))) := by
  constructor
  · exact fun pre post f e err hpre hf hpost => first_error_outcome hpre hf hpost
  · intro A B ka kb e hA1 hA2 hB1 hB2 hka hkb
    have hA := init_result_missing hA1 hA2 hka
    have hB := init_result_missing hB1 hB2 hkb
    rcases init_result_some hA with ⟨iA, htA, heA⟩
    rcases init_result_some hB with ⟨iB, htB, heB⟩
    constructor
    · simp [init_outcome, impl_setting_struct, collect_inits, htA, htB,
        run_inits, heA]
    · simp [init_outcome, impl_setting_struct, collect_inits, htA, htB,
        run_inits, heB]

theorem C1_witness :
    init_outcome
        (List.cons (FieldInit.mk "a" (FieldArgs.mk (some "KA") none) FieldTy.usizeTy)
          (List.cons (FieldInit.mk "b" (FieldArgs.mk (some "KB") none) FieldTy.usizeTy)
            List.nil)) List.nil
        = some (Except.error (Error.MissingEnv "KA")) ∧
    init_outcome
        (List.cons (FieldInit.mk "b" (FieldArgs.mk (some "KB") none) FieldTy.usizeTy)
          (List.cons (FieldInit.mk "a" (FieldArgs.mk (some "KA") none) FieldTy.usizeTy)
            List.nil)) List.nil
        = some (Except.error (Error.MissingEnv "KB")) :=
  C1_first_failure_in_order.2
    (FieldInit.mk "a" (FieldArgs.mk (some "KA") none) FieldTy.usizeTy)
    (FieldInit.mk "b" (FieldArgs.mk (some "KB") none) FieldTy.usizeTy)
    "KA" "KB" List.nil rfl rfl rfl rfl rfl rfl

/-- C2: a mandatory (env-only) field whose key is unset makes the derived
`init` return `MissingEnv` with that key, provided every earlier field
resolved; the fields after it never affect the result. -/
theorem C2_missing_env_fail_fast :
    ∀ (pre post : List FieldInit) (f : FieldInit) (k : String) (e : Env),
      f.args.env = some k → f.args.default = none →
      env_var e k = none →
      (∀ g ∈ pre, ∃ v, init_result g e = some (Except.ok v)) →
      (∀ g ∈ post, Option.isSome (FieldInit.to_tokens g) = true) →
      init_outcome (pre ++ List.cons f post) e
        = some (Except.error (Error.MissingEnv k)) :=
  fun _pre _post _f _k _e h1 h2 h3 hpre hpost =>
    first_error_outcome hpre (init_result_missing h1 h2 h3) hpost

theorem C2_witness :
    init_outcome
        (List.cons (FieldInit.mk "d" (FieldArgs.mk none (some (Lit.int 7))) FieldTy.usizeTy)
          (List.cons (FieldInit.mk "pw" (FieldArgs.mk (some "PW") none) FieldTy.stringTy)
            List.nil)) List.nil
        = some (Except.error (Error.MissingEnv "PW")) :=
  C2_missing_env_fail_fast
    (List.cons (FieldInit.mk "d" (FieldArgs.mk none (some (Lit.int 7))) FieldTy.usizeTy)
      List.nil)
    List.nil
    (FieldInit.mk "pw" (FieldArgs.mk (some "PW") none) FieldTy.stringTy)
    "PW" List.nil rfl rfl rfl
    (by
      intro g hg
      rw [List.mem_singleton] at hg
      subst hg
      exact ⟨Val.nat 7, rfl⟩)
    (by intro g hg; cases hg)

/-- C3: a field with both an env key and a default, whose key is set to text
that does not parse as the field's type, produces `EnvParse` carrying the key
and exactly that raw text, provided every earlier field resolved; moreover the
error is the same whatever default literal (or none) the field declares, so
the default is never consulted. -/
theorem C3_env_parse_exact :
    (∀ (pre post : List FieldInit) (f : FieldInit) (v : String) (d : Lit)
        (e : Env) (r : String),
      f.args.env = some v → f.args.default = some d →
      env_var e v = some r → f.ty.parse r = none →
      (∀ g ∈ pre, ∃ w, init_result g e = some (Except.ok w)) →
      (∀ g ∈ post, Option.isSome (FieldInit.to_tokens g) = true) →
      init_outcome (pre ++ List.cons f post) e
        = some (Except.error (Error.EnvParse v r))) ∧
    (∀ (name : String) (ty : FieldTy) (v : String) (e : Env) (r : String)
        (d' : Option Lit),
      env_var e v = some r → ty.parse r = none →
      init_result (FieldInit.mk name (FieldArgs.mk (some v) d') ty) e
        = some (Except.error (Error.EnvParse v r))) := by
  constructor
  · intro pre post f v d e r h1 h2 h3 h4 hpre hpost
    exact first_error_outcome hpre (init_result_env_parse h1 h3 h4) hpost
  · intro name ty v e r d' h3 h4
    exact init_result_env_parse rfl h3 h4

theorem C3_witness :
    init_outcome
        (List.cons (FieldInit.mk "port" (FieldArgs.mk (some "PORT") (some (Lit.int 3000)))
          FieldTy.usizeTy) List.nil)
        (List.cons ("PORT", OsValue.unicode "qwerty") List.nil)
        = some (Except.error (Error.EnvParse "PORT" "qwerty")) ∧
    init_result
        (FieldInit.mk "port" (FieldArgs.mk (some "PORT") (some (Lit.str "55")))
          FieldTy.usizeTy)
        (List.cons ("PORT", OsValue.unicode "qwerty") List.nil)
        = some (Except.error (Error.EnvParse "PORT" "qwerty")) :=
  ⟨C3_env_parse_exact.1 List.nil List.nil
      (FieldInit.mk "port" (FieldArgs.mk (some "PORT") (some (Lit.int 3000)))
        FieldTy.usizeTy)
      "PORT" (Lit.int 3000)
      (List.cons ("PORT", OsValue.unicode "qwerty") List.nil)
      "qwerty" rfl rfl rfl rfl
      (by intro g hg; cases hg)
      (by intro g hg; cases hg),
    C3_env_parse_exact.2 "port" FieldTy.usizeTy "PORT"
      (List.cons ("PORT", OsValue.unicode "qwerty") List.nil)
      "qwerty" (some (Lit.str "55")) rfl rfl⟩

/-- C4 (counterexample): for the field `user` of type `usize` with env key
`CD_KEY` unset and default literal `"abc"` (a string literal), the text handed
to the parser is the normalized `abc`, but the `DefaultParse` error carries the
source token `"abc"` with its quotes — not the normalized text, refuting the
claim that the error payload equals the text handed to the parser. -/
theorem C4_counterexample :
    init_result
        (FieldInit.mk "user" (FieldArgs.mk (some "CD_KEY") (some (Lit.str "abc")))
          FieldTy.usizeTy) List.nil
        = some (Except.error (Error.DefaultParse "user" "\"abc\"")) ∧
    (Lit.str "abc").toDisplay = "abc" ∧
    ("\"abc\"" : String) ≠ "abc" :=
  ⟨rfl, rfl, by decide⟩

/-- C4 (amended): when a field's default literal is used (env+default with the
key unset, or default-only) and its normalized text does not parse as the
field's type, the derived `init` returns `DefaultParse` carrying the field's
name and the default literal's source-token text (`stringify!`), which for a
string literal keeps the surrounding quotes and thus can differ from the
normalized text handed to the parser. -/
theorem C4_default_parse_token_text :
    ∀ (pre post : List FieldInit) (f : FieldInit) (d : Lit) (e : Env),
      f.args.default = some d →
      f.ty.parse d.toDisplay = none →
      (∀ g ∈ pre, ∃ v, init_result g e = some (Except.ok v)) →
      (∀ g ∈ post, Option.isSome (FieldInit.to_tokens g) = true) →
      ((∀ v, f.args.env = some v → env_var e v = none →
          init_outcome (pre ++ List.cons f post) e
            = some (Except.error (Error.DefaultParse f.name d.stringify))) ∧
       (f.args.env = none →
          init_outcome (pre ++ List.cons f post) e
            = some (Except.error (Error.DefaultParse f.name d.stringify)))) := by
  intro pre post f d e h2 h4 hpre hpost
  constructor
  · intro v hv henv
    refine first_error_outcome hpre ?_ hpost
    refine init_result_default_parse h2 h4 ?_
    intro v' hv'
    rw [hv] at hv'
    injection hv' with hv'
    subst hv'
    exact henv
  · intro hv
    refine first_error_outcome hpre ?_ hpost
    refine init_result_default_parse h2 h4 ?_
    intro v' hv'
    rw [hv] at hv'
    cases hv'

theorem C4_witness :
    init_outcome
        (List.cons (FieldInit.mk "test" (FieldArgs.mk (some "S") (some (Lit.str "xy")))
          FieldTy.usizeTy) List.nil) List.nil
        = some (Except.error (Error.DefaultParse "test" "\"xy\"")) :=
  (C4_default_parse_token_text List.nil List.nil
    (FieldInit.mk "test" (FieldArgs.mk (some "S") (some (Lit.str "xy"))) FieldTy.usizeTy)
    (Lit.str "xy") List.nil rfl rfl
    (by intro g hg; cases hg)
    (by intro g hg; cases hg)).1 "S" rfl rfl

/-- C5: a numeric default literal is handed to the parser as its canonical
decimal text, exactly as environment text would be: a `String`-typed field
with default literal `n` (numeric) resolves to the text of `n` whether the
field also names an unset env key or is default-only; and both the normalized
form and the source token of a numeric literal are that canonical text. -/
theorem C5_numeric_default_normalized :
    (∀ (f : FieldInit) (v : String) (n : Nat) (e : Env),
      f.ty = FieldTy.stringTy → f.args.env = some v →
      f.args.default = some (Lit.int n) → env_var e v = none →
      init_result f e = some (Except.ok (Val.str (toString n)))) ∧
    (∀ (f : FieldInit) (n : Nat) (e : Env),
      f.ty = FieldTy.stringTy → f.args.env = none →
      f.args.default = some (Lit.int n) →
      init_result f e = some (Except.ok (Val.str (toString n)))) ∧
    (∀ n : Nat, (Lit.int n).toDisplay = toString n
      ∧ (Lit.int n).stringify = toString n) := by
  refine ⟨?_, ?_, fun n => ⟨rfl, rfl⟩⟩
  · intro f v n e hty h1 h2 henv
    simp [init_result, FieldInit.to_tokens, h1, h2,
      FieldInit.parse_env_and_default, henv, FieldTy.parse, hty, Lit.toDisplay]
  · intro f n e hty h1 h2
    simp [init_result, FieldInit.to_tokens, h1, h2,
      FieldInit.parse_default_only, FieldTy.parse, hty, Lit.toDisplay]

theorem C5_witness :
    init_result
        (FieldInit.mk "test" (FieldArgs.mk (some "ENVCONF_STRING") (some (Lit.int 3000)))
          FieldTy.stringTy) List.nil
        = some (Except.ok (Val.str "3000")) :=
  C5_numeric_default_normalized.1
    (FieldInit.mk "test" (FieldArgs.mk (some "ENVCONF_STRING") (some (Lit.int 3000)))
      FieldTy.stringTy)
    "ENVCONF_STRING" 3000 List.nil rfl rfl rfl rfl

/-- C6: an environment variable set to the empty string counts as present:
the field's initializer parses the empty string (returning its parse, or
`EnvParse(key, "")` on failure), the result does not depend on any declared
default, and `MissingEnv` is never returned. -/
theorem C6_empty_value_is_present :
    ∀ (f : FieldInit) (v : String) (e : Env),
      f.args.env = some v →
      List.lookup v e = some (OsValue.unicode "") →
      (init_result f e = some (match f.ty.parse "" with
          | some x => Except.ok x
          | none => Except.error (Error.EnvParse v "")) ∧
       (∀ d', init_result (FieldInit.mk f.name (FieldArgs.mk (some v) d') f.ty) e
          = init_result f e) ∧
       (∀ k, init_result f e ≠ some (Except.error (Error.MissingEnv k)))) := by
  intro f v e h1 hl
  have henv : env_var e v = some "" := by unfold env_var; rw [hl]
  have hmain : init_result f e = some (match f.ty.parse "" with
      | some x => Except.ok x
      | none => Except.error (Error.EnvParse v "")) := by
    cases hd : f.args.default with
    | none =>
      simp [init_result, FieldInit.to_tokens, h1, hd, FieldInit.parse_env_only,
        henv]
    | some d =>
      simp [init_result, FieldInit.to_tokens, h1, hd,
        FieldInit.parse_env_and_default, henv]
  refine ⟨hmain, ?_, ?_⟩
  · intro d'
    rw [hmain]
    cases d' with
    | none =>
      simp [init_result, FieldInit.to_tokens, FieldInit.parse_env_only, henv]
    | some d =>
      simp [init_result, FieldInit.to_tokens, FieldInit.parse_env_and_default,
        henv]
  · intro k
    rw [hmain]
    cases hp : f.ty.parse "" <;> simp

theorem C6_witness :
    init_result
        (FieldInit.mk "host" (FieldArgs.mk (some "HOST") (some (Lit.str "x")))
          FieldTy.usizeTy)
        (List.cons ("HOST", OsValue.unicode "") List.nil)
        = some (Except.error (Error.EnvParse "HOST" "")) :=
  (C6_empty_value_is_present
    (FieldInit.mk "host" (FieldArgs.mk (some "HOST") (some (Lit.str "x")))
      FieldTy.usizeTy)
    "HOST" (List.cons ("HOST", OsValue.unicode "") List.nil) rfl rfl).1

/-- C7: a default-only field performs no environment lookup: its initializer's
result is identical in any two environments, whatever they contain. -/
theorem C7_default_only_ignores_env :
    ∀ (f : FieldInit) (d : Lit) (e₁ e₂ : Env),
      f.args.env = none → f.args.default = some d →
      init_result f e₁ = init_result f e₂ := by
  intro f d e₁ e₂ h1 h2
  simp [init_result, FieldInit.to_tokens, h1, h2, FieldInit.parse_default_only]

theorem C7_witness :
    init_result
        (FieldInit.mk "u" (FieldArgs.mk none (some (Lit.int 9))) FieldTy.usizeTy)
        List.nil
      = init_result
        (FieldInit.mk "u" (FieldArgs.mk none (some (Lit.int 9))) FieldTy.usizeTy)
        (List.cons ("X", OsValue.unicode "1") List.nil) :=
  C7_default_only_ignores_env
    (FieldInit.mk "u" (FieldArgs.mk none (some (Lit.int 9))) FieldTy.usizeTy)
    (Lit.int 9) List.nil (List.cons ("X", OsValue.unicode "1") List.nil) rfl rfl

/-- C8: the derived `init` is a pure function of the catalog and the
environment snapshot: two environments that agree (through `std::env::var`) on
every env key declared in the catalog produce equal outcomes — in particular
two calls against an unchanged environment yield equal results, with no
caching or hidden state. -/
theorem C8_pure_in_catalog_and_env :
    ∀ (fields : List FieldInit) (e₁ e₂ : Env),
      (∀ f ∈ fields, ∀ k, f.args.env = some k → env_var e₁ k = env_var e₂ k) →
      init_outcome fields e₁ = init_outcome fields e₂ := by
  intro fields e₁ e₂ h
  unfold init_outcome impl_setting_struct
  cases hc : collect_inits fields with
  | none => rfl
  | some inits =>
    simp only [Option.map_some']
    congr 1
    apply run_inits_congr
    intro i hi
    rcases collect_inits_sound hc i hi with ⟨g, hg, hgt⟩
    exact to_tokens_env_agree hgt (fun k hk => h g hg k hk)

theorem C8_witness :
    init_outcome
        (List.cons (FieldInit.mk "n" (FieldArgs.mk (some "K") (some (Lit.int 1)))
          FieldTy.usizeTy) List.nil)
        (List.cons ("K", OsValue.unicode "5") List.nil)
      = init_outcome
        (List.cons (FieldInit.mk "n" (FieldArgs.mk (some "K") (some (Lit.int 1)))
          FieldTy.usizeTy) List.nil)
        (List.cons ("K", OsValue.unicode "5")
          (List.cons ("J", OsValue.invalid) List.nil)) :=
  C8_pure_in_catalog_and_env
    (List.cons (FieldInit.mk "n" (FieldArgs.mk (some "K") (some (Lit.int 1)))
      FieldTy.usizeTy) List.nil)
    (List.cons ("K", OsValue.unicode "5") List.nil)
    (List.cons ("K", OsValue.unicode "5")
      (List.cons ("J", OsValue.invalid) List.nil))
    (by
      intro f hf k hk
      rw [List.mem_singleton] at hf
      subst hf
      injection hk with hk
      subst hk
      rfl)

/-- C9: a field declaring neither an env key nor a default makes the derive
macro panic while building the catalog, so no resolver is ever produced for a
catalog containing such a field and resolution never runs on it. -/
theorem C9_neither_env_nor_default_rejected :
    ∀ (fields : List FieldInit) (f : FieldInit),
      f ∈ fields → f.args.env = none → f.args.default = none →
      impl_setting_struct fields = none := by
  intro fields f hmem h1 h2
  have ht : FieldInit.to_tokens f = none := by
    simp [FieldInit.to_tokens, h1, h2]
  have hc : ∀ fs : List FieldInit, f ∈ fs → collect_inits fs = none := by
    intro fs
    induction fs with
    | nil => intro h; cases h
    | cons g rest ih =>
      intro hmem'
      rcases List.mem_cons.mp hmem' with rfl | hrest
      · cases hr : collect_inits rest <;> simp [collect_inits, ht, hr]
      · have hnone := ih hrest
        cases hg : FieldInit.to_tokens g <;> simp [collect_inits, hg, hnone]
  unfold impl_setting_struct
  rw [hc fields hmem]

theorem C9_witness :
    impl_setting_struct
        (List.cons (FieldInit.mk "bad" (FieldArgs.mk none none) FieldTy.usizeTy)
          List.nil)
      = none :=
  C9_neither_env_nor_default_rejected
    (List.cons (FieldInit.mk "bad" (FieldArgs.mk none none) FieldTy.usizeTy)
      List.nil)
    (FieldInit.mk "bad" (FieldArgs.mk none none) FieldTy.usizeTy)
    (List.mem_singleton.mpr rfl) rfl rfl

/-- C10: an environment variable whose value is not valid Unicode behaves
exactly like an absent one, because `std::env::var` returns `Err(NotUnicode)`
and the generated `if let Ok(r)` takes the else branch: an env+default field
falls back to its default literal, and an env-only field returns `MissingEnv`
although the key exists. -/
theorem C10_non_unicode_as_absent :
    ∀ (f : FieldInit) (v : String) (e : Env),
      f.args.env = some v →
      List.lookup v e = some OsValue.invalid →
      ((∀ d, f.args.default = some d →
          init_result f e = some (match f.ty.parse d.toDisplay with
            | some x => Except.ok x
            | none => Except.error (Error.DefaultParse f.name d.stringify))) ∧
       (f.args.default = none →
          init_result f e = some (Except.error (Error.MissingEnv v)))) := by
  intro f v e h1 hl
  have henv : env_var e v = none := by unfold env_var; rw [hl]
  constructor
  · intro d hd
    simp [init_result, FieldInit.to_tokens, h1, hd,
      FieldInit.parse_env_and_default, henv]
  · intro hd
    exact init_result_missing h1 hd henv

theorem C10_witness :
    init_result
        (FieldInit.mk "n" (FieldArgs.mk (some "K") (some (Lit.int 7)))
          FieldTy.usizeTy)
        (List.cons ("K", OsValue.invalid) List.nil)
        = some (Except.ok (Val.nat 7)) ∧
    init_result
        (FieldInit.mk "pw" (FieldArgs.mk (some "PW") none) FieldTy.usizeTy)
        (List.cons ("PW", OsValue.invalid) List.nil)
        = some (Except.error (Error.MissingEnv "PW")) :=
  ⟨(C10_non_unicode_as_absent
      (FieldInit.mk "n" (FieldArgs.mk (some "K") (some (Lit.int 7)))
        FieldTy.usizeTy)
      "K" (List.cons ("K", OsValue.invalid) List.nil) rfl rfl).1
      (Lit.int 7) rfl,
    (C10_non_unicode_as_absent
      (FieldInit.mk "pw" (FieldArgs.mk (some "PW") none) FieldTy.usizeTy)
      "PW" (List.cons ("PW", OsValue.invalid) List.nil) rfl rfl).2 rfl⟩
